import Mathlib

/-!
# Verification of the doxie ingestion pipeline (`src/server/processor.ts`)

Shallow embedding of the data model and operations of the ingestion
pipeline: the token-aware text segmentation (flat recursive split and
heading-aware hierarchical split), the four source extractors (Faq,
Flarum, Sitemap, MarkdownZip), the vector-array construction and batch
upsert of the pipeline, and the job scheduler's error handling and
crash recovery.

External collaborators are parameters of the embedded functions:
* `tok : String → Nat` models `Embedder.tokenize(text).length`
  (the js-tiktoken subword encoder, an external collaborator whose
  contract is only "token count of a string");
* `splitter : Nat → String → List String` models langchain's
  `RecursiveCharacterTextSplitter.splitText` at a given `chunkSize`
  (an external library; the pipeline only consumes the list of splits);
* embedding vectors are opaque values never inspected arithmetically;
  they are modelled as `List Int` stand-ins for `number[]`.
-/

/-- The JavaScript whitespace characters relevant to the processed content
(JS `String.trim` removes whitespace from both ends). -/
def isJsWhitespace (c : Char) : Bool :=
  c = ' ' || c = '\t' || c = '\n' || c = '\r'

/-- JavaScript `String.trim()`: drop whitespace from both ends. Defined
structurally over the character list so that it evaluates in the kernel. -/
def jsTrim (s : String) : String :=
  String.mk (((s.toList.dropWhile isJsWhitespace).reverse.dropWhile isJsWhitespace).reverse)

/-- Splitting a character list at every occurrence of `sep`; always returns
at least one piece, like JS `String.split`. -/
def splitCharList (sep : Char) : List Char → List (List Char)
  | [] => [[]]
  | c :: rest =>
    match splitCharList sep rest with
    | [] => [[c]]
    | h :: t => if c = sep then [] :: h :: t else (c :: h) :: t

/-- JavaScript `String.split(sep)` for a one-character separator (the code
only ever splits on `"\n"`). -/
def jsSplit (sep : Char) (s : String) : List String :=
  (splitCharList sep s.toList).map String.mk

/-- JavaScript `String.toLowerCase()` (structural, kernel-evaluating). -/
def jsToLower (s : String) : String := String.mk (s.toList.map Char.toLower)

/-- Whether the first list is an initial run of the second. -/
def charListStarts : List Char → List Char → Bool
  | [], _ => true
  | _ :: _, [] => false
  | p :: ps, c :: cs => p = c && charListStarts ps cs

/-- Remove the first occurrence of `pat` from the character list. -/
def removeFirstAux (pat : List Char) : List Char → List Char
  | [] => []
  | c :: cs => if charListStarts pat (c :: cs) then (c :: cs).drop pat.length
               else c :: removeFirstAux pat cs

/-- JavaScript `String.replace(pat, "")` with a string pattern: removes only
the FIRST occurrence of `pat` (unlike Lean's `String.replace`, which removes
all of them). -/
def removeFirst (s pat : String) : String :=
  String.mk (removeFirstAux pat.toList s.toList)

/-- A segment of a document: `EmbedderDocumentSegment` of `common/api`.
`embedding` starts `[]` and is filled by the external embedder. -/
structure EmbedderDocumentSegment where
  text : String
  tokenCount : Nat
  embedding : List Int
deriving Repr, DecidableEq

/-- A document produced by a source extractor: `EmbedderDocument` of
`common/api`. -/
structure EmbedderDocument where
  uri : String
  title : String
  text : String
  segments : List EmbedderDocumentSegment
deriving Repr, DecidableEq

/-- `recursiveSplit` (processor.ts lines 33-46): splits `text` with the
external recursive character splitter at `chunkSize`, and computes every
split's true token count with the tokenizer. -/
def recursiveSplit (tok : String → Nat) (splitter : Nat → String → List String)
    (chunkSize : Nat) (text : String) : List EmbedderDocumentSegment :=
  (splitter chunkSize text).map fun s => ⟨s, tok s, []⟩

/-- `countHashAtBeginning` (processor.ts lines 48-51): the length of the
maximal run of `#` at the start of the line (`/^#+/`). -/
def countHashAtBeginning (line : String) : Nat :=
  (line.toList.takeWhile (fun c => c = '#')).length

/-- The state of a processing job (`ProcessingJob["state"]` of `common/api`,
per the spec's job state machine). -/
inductive JobState where
  | waiting
  | running
  | succeeded
  | failed
  | stopped
deriving Repr, DecidableEq, BEq

/-- A processing job record as persisted in the job store. -/
structure PJob where
  id : String
  sourceId : String
  state : JobState
  log : String
  createdAt : Nat
  startedAt : Option Nat
  finishedAt : Option Nat
deriving Repr, DecidableEq

/-- `Processor.checkJobStatus` (processor.ts lines 426-429): look the job up
in the store; a missing record yields `"stopped"` (`job?.state ?? "stopped"`). -/
def checkJobStatus (jobs : List PJob) (jobId : String) : JobState :=
  match jobs.find? (fun j => j.id == jobId) with
  | some j => j.state
  | none => JobState.stopped

/-- The cancellation probe handed to the extractors (processor.ts line 471):
`(await this.checkJobStatus(job._id)) == "stopped"`. -/
def shouldStopOf (jobs : List PJob) (jobId : String) : Bool :=
  checkJobStatus jobs jobId == JobState.stopped

/-- `Processor.finishJob` (processor.ts lines 431-434): persist the terminal
state (`succeeded` on success, `failed` otherwise) and `finishedAt = now`. -/
def finishJob (now : Nat) (success : Bool) (j : PJob) : PJob :=
  { j with state := if success then JobState.succeeded else JobState.failed,
           finishedAt := some now }

/-- The scheduler's per-job boundary (processor.ts lines 463-548) as a
function of the pipeline outcome: on success `finishJob true`; on any raised
condition, append the error text to the job log (`this.log`, best-effort:
`logOk = false` models a failing `updateJobLog`, whose error is swallowed by
the inner `try {} catch (e) {}`) and then `finishJob false`. -/
def runJobIteration (now : Nat) (logOk : Bool) (result : Except String Unit)
    (j : PJob) : PJob :=
  match result with
  | Except.ok _ => finishJob now true j
  | Except.error msg =>
      finishJob now false (if logOk then { j with log := j.log ++ msg ++ "\n" } else j)

/-- Startup crash recovery (processor.ts line 582):
`jobs.updateMany({state:"running"}, {$set:{state:"stopped", finishedAt: now}})`,
run before the `Processor` is constructed and its loop started. -/
def recoverRunningJobs (now : Nat) (jobs : List PJob) : List PJob :=
  jobs.map fun j =>
    if j.state = JobState.running then
      { j with state := JobState.stopped, finishedAt := some now }
    else j

/-- Pop entries from the top of the breadcrumb stack while the top entry's
heading depth is at least `hashes`: the loop
`while (title.length > 0 && countHashAtBeginning(title[title.length-1]) >= hashes) title.pop()`
(processor.ts lines 301-303). The stack is kept in array order: bottom
first, top of the stack last. -/
def popGE (hashes : Nat) (title : List String) : List String :=
  (title.reverse.dropWhile (fun s => hashes ≤ countHashAtBeginning s)).reverse

/-- The breadcrumb-stack update performed for a heading line whose leading
hash count is `hashes` (processor.ts lines 297-306): when `hashes` exceeds
the current stack SIZE the heading is pushed with no popping; otherwise the
top entries with depth ≥ `hashes` are popped and the heading is pushed.
`line` is the already-trimmed heading line. -/
def updateBreadcrumb (hashes : Nat) (title : List String) (line : String) : List String :=
  if hashes > title.length then
    title ++ [line]
  else
    popGE hashes title ++ [line]

/-- The buffer flush of the heading-aware split (processor.ts lines 280-295,
identical code repeated at lines 311-326 for the final flush): an empty
buffer emits nothing; a buffer at or under 500 tokens emits one trimmed
segment; a larger buffer has the breadcrumb prefix
`t = docTitle + "\n" + title.join("\n") + "\n"` removed (first occurrence,
JS `String.replace`), is recursively split at target 1024, and each split is
re-prefixed with `t` and trimmed (keeping the split's own token count). -/
def mdFlush (tok : String → Nat) (splitter : Nat → String → List String)
    (docTitle : String) (title : List String) (currText : String) :
    List EmbedderDocumentSegment :=
  if currText.length > 0 then
    let tokenCount := tok currText
    if tokenCount > 500 then
      let t := docTitle ++ "\n" ++ String.intercalate "\n" title ++ "\n"
      let stripped := jsTrim (removeFirst currText t)
      (splitter 1024 stripped).map fun s => ⟨jsTrim (t ++ s), tok s, []⟩
    else
      [⟨jsTrim currText, tokenCount, []⟩]
  else []

/-- The line loop of the heading-aware hierarchical split
(processor.ts lines 274-309 plus the final flush at lines 311-326).
State: remaining lines, breadcrumb stack `title`, accumulation buffer
`currText`. A non-heading line is appended to the buffer; a heading line
flushes the buffer, updates the breadcrumb stack, and reseeds the buffer
with `docTitle + "\n" + title.join("\n") + "\n"`. -/
def mdRun (tok : String → Nat) (splitter : Nat → String → List String)
    (docTitle : String) : List String → List String → String →
    List EmbedderDocumentSegment
  | [], title, currText => mdFlush tok splitter docTitle title currText
  | line :: rest, title, currText =>
    let hashes := countHashAtBeginning (jsTrim line)
    if hashes = 0 then
      mdRun tok splitter docTitle rest title (currText ++ line ++ "\n")
    else
      mdFlush tok splitter docTitle title currText ++
        (let title2 := updateBreadcrumb hashes title (jsTrim line)
         mdRun tok splitter docTitle rest title2
           (docTitle ++ "\n" ++ String.intercalate "\n" title2 ++ "\n"))

/-- The segmentation hook of `MarkdownZipProccessor.process`
(processor.ts lines 266-327): split the document text on `"\n"` and run the
heading-aware line loop with an empty stack and an empty buffer. -/
def mdSegments (tok : String → Nat) (splitter : Nat → String → List String)
    (docTitle : String) (text : String) : List EmbedderDocumentSegment :=
  mdRun tok splitter docTitle (jsSplit '\n' text) [] ""

/-- A post of a Flarum discussion (`FlarumPost` of `common/api`, as consumed
by `FlarumProccessor.process`). -/
structure FlarumPost where
  detectedLang : String
  userName : String
  content : String
deriving Repr, DecidableEq

/-- A Flarum discussion of the exported dump (`FlarumDiscussion` of
`common/api`): `posts` may be absent. -/
structure FlarumDiscussion where
  discussionId : Nat
  title : String
  posts : Option (List FlarumPost)
deriving Repr, DecidableEq

/-- The per-post segment construction of `FlarumProccessor.process`
(processor.ts lines 188-202): `tokenCount` is the token count of
`post.content` ALONE; the chunk text is `discussion.title + "\n" + post.content`;
a post whose content token count exceeds 500 is recursively split at target
1024, otherwise one segment holding the chunk text (with the content's token
count) is emitted. -/
def flarumPostSegments (tok : String → Nat) (splitter : Nat → String → List String)
    (title content : String) : List EmbedderDocumentSegment :=
  let tokenCount := tok content
  let chunk := title ++ "\n" ++ content
  if tokenCount > 500 then
    recursiveSplit tok splitter 1024 chunk
  else
    [⟨chunk, tokenCount, []⟩]

/-- The language filter and the staff filter of `FlarumProccessor.process`
(processor.ts lines 178-186): keep a post iff its detected language is
`"en"` and, when the staff allow-list is non-empty, its author's lowercased
name is on the lowercased allow-list. -/
def flarumPostPasses (staff : List String) (post : FlarumPost) : Bool :=
  post.detectedLang == "en" &&
    (staff.isEmpty || (staff.map jsToLower).contains (jsToLower post.userName))

/-- The post loop of `FlarumProccessor.process` for one discussion
(processor.ts lines 176-209): surviving posts become documents whose uri is
`forumUrl + discussionId + "/" + postId` (the counter `postId` starts at 1
and increments per surviving post), whose text is cleared (`""`), and whose
segments come from `flarumPostSegments`. -/
def flarumPostLoop (tok : String → Nat) (splitter : Nat → String → List String)
    (staff : List String) (discussionUri : String) (title : String) :
    List FlarumPost → Nat → List EmbedderDocument
  | [], _ => []
  | post :: rest, postId =>
    if flarumPostPasses staff post then
      { uri := discussionUri ++ "/" ++ toString postId, title := title,
        text := "", segments := flarumPostSegments tok splitter title post.content } ::
        flarumPostLoop tok splitter staff discussionUri title rest (postId + 1)
    else
      flarumPostLoop tok splitter staff discussionUri title rest postId

/-- The documents `FlarumProccessor.process` emits for one discussion
(processor.ts lines 170-214): a discussion without posts contributes
nothing; otherwise the post loop runs with `postId = 1` and
`discussionUri = forumUrl + discussionId` (`forumUrl` already normalized to
end in `/d/`). -/
def flarumDiscussionDocs (tok : String → Nat) (splitter : Nat → String → List String)
    (staff : List String) (forumUrl : String) (d : FlarumDiscussion) :
    List EmbedderDocument :=
  match d.posts with
  | none => []
  | some posts =>
    flarumPostLoop tok splitter staff (forumUrl ++ toString d.discussionId) d.title posts 1

/-- An FAQ entry of a `FaqSource` (`common/api`). -/
structure FaqEntry where
  id : String
  questions : String
  answer : String
deriving Repr, DecidableEq

/-- The document `FaqProccessor.process` builds for one FAQ entry
(processor.ts lines 135-141): `uri = "faq://" + sourceId + "/" + entry.id`,
`text = questions + "\n\n" + answer`, `title = questions`, no segments yet. -/
def faqDoc (sourceId : String) (e : FaqEntry) : EmbedderDocument :=
  { uri := "faq://" ++ sourceId ++ "/" ++ e.id,
    text := e.questions ++ "\n\n" ++ e.answer,
    title := e.questions,
    segments := [] }

/-- The per-document hook `FaqProccessor.process` passes to
`embedDocuments` (processor.ts lines 144-150): a document over 500 tokens
raises a fatal error naming the document's title; otherwise the document
gets exactly one segment holding its whole text. -/
def faqHook (tok : String → Nat) (doc : EmbedderDocument) :
    Except String EmbedderDocument :=
  let tokenCount := tok doc.text
  if tokenCount > 500 then
    Except.error ("Token count of FAQ entry '" ++ doc.title ++ "' > 500, make it smaller.")
  else
    Except.ok { doc with segments := [⟨doc.text, tokenCount, []⟩] }

/-- Modelled from the spec: `Embedder.embedDocuments` (embedder.ts, not part
of the analyzed sources) runs the per-document post-processing hook on each
document in order before embedding ("a per-document post-processing hook run
after texts are known but before embedding"); a raised condition aborts the
job. -/
def embedWithHook (hook : EmbedderDocument → Except String EmbedderDocument)
    (docs : List EmbedderDocument) : Except String (List EmbedderDocument) :=
  docs.mapM hook

/-- `FaqProccessor.process` (processor.ts lines 131-153): build one document
per FAQ entry and run the token-ceiling hook over them. -/
def faqProcess (tok : String → Nat) (sourceId : String) (faqs : List FaqEntry) :
    Except String (List EmbedderDocument) :=
  embedWithHook (faqHook tok) (faqs.map (faqDoc sourceId))

/-- The document-building loop of one sitemap batch
(processor.ts lines 374-392): `htmls` holds, per batch URL in order, the
fetched page body or `none` when reading the body failed; `render html`
models the title/content extraction chain `normalizeHtml` +
`extractDataWithXPath` (external DOM/XPath libraries), returning
`(title, text)`. The counter `i` is incremented only when a document is
pushed — a skipped page does NOT advance it (the `continue` skips `i++`). -/
def sitemapBatchLoop (render : String → String × String) (batchUrls : List String) :
    List (Option String) → Nat → List EmbedderDocument
  | [], _ => []
  | none :: rest, i => sitemapBatchLoop render batchUrls rest i
  | some html :: rest, i =>
    let r := render html
    { uri := batchUrls.getD i "", title := r.1, text := r.1 ++ "\n" ++ r.2,
      segments := [] } :: sitemapBatchLoop render batchUrls rest (i + 1)

/-- The documents one sitemap batch contributes (processor.ts lines 374-392),
starting the push counter `i` at 0. -/
def sitemapBatchDocs (render : String → String × String) (batchUrls : List String)
    (htmls : List (Option String)) : List EmbedderDocument :=
  sitemapBatchLoop render batchUrls htmls 0

/-- The batch loop of `SitemapProccessor.process`
(processor.ts lines 362-395): splice 25 URLs, fetch them (a URL whose body
cannot be read yields `none`), build the batch's documents, then check the
cancellation probe and raise `"Job stopped by user"` when it signals. -/
def sitemapScrape (stop : Bool) (fetchHtml : String → Option String)
    (render : String → String × String) (urls : List String)
    (acc : List EmbedderDocument) : Except String (List EmbedderDocument) :=
  if h : urls = [] then
    Except.ok acc
  else
    let batchUrls := urls.take 25
    let htmls := batchUrls.map fetchHtml
    let acc2 := acc ++ sitemapBatchDocs render batchUrls htmls
    if stop then
      Except.error "Job stopped by user"
    else
      sitemapScrape stop fetchHtml render (urls.drop 25) acc2
termination_by urls.length
decreasing_by
  have hp : 0 < urls.length := List.length_pos.mpr h
  simp [List.length_drop]
  omega

/-- The vector record metadata (`VectorMetadata` of `common/api`,
processor.ts lines 503-509). -/
structure VectorMetadata where
  sourceId : String
  docUri : String
  docTitle : String
  index : Nat
  tokenCount : Nat
deriving Repr, DecidableEq

/-- `ids` (processor.ts line 499):
`docs.flatMap(doc => doc.segments.map((seg, index) => doc.uri + "|" + index))`. -/
def buildIds (docs : List EmbedderDocument) : List String :=
  docs.flatMap fun doc => doc.segments.enum.map fun p => doc.uri ++ "|" ++ toString p.1

/-- `embeddings` (processor.ts line 500):
`docs.flatMap(doc => doc.segments.map(seg => seg.embedding))`. -/
def buildEmbeddings (docs : List EmbedderDocument) : List (List Int) :=
  docs.flatMap fun doc => doc.segments.map fun seg => seg.embedding

/-- `metadatas` (processor.ts lines 501-512). -/
def buildMetadatas (sourceId : String) (docs : List EmbedderDocument) :
    List VectorMetadata :=
  docs.flatMap fun doc => doc.segments.enum.map fun p =>
    { sourceId := sourceId, docUri := doc.uri, docTitle := doc.title,
      index := p.1, tokenCount := p.2.tokenCount }

/-- `documents` (processor.ts lines 513-517):
`docs.flatMap(doc => doc.segments.map(seg => seg.text))`. -/
def buildVectorDocs (docs : List EmbedderDocument) : List String :=
  docs.flatMap fun doc => doc.segments.map fun seg => seg.text

/-- The logical segment list the four arrays are views of: every document's
segments in document order, then segment order, each paired with its
document and its index within the document. This is the specification-side
anchor for the alignment claim; the four `build*` functions above are the
code-side arrays. -/
def segmentTriples (docs : List EmbedderDocument) :
    List (EmbedderDocument × Nat × EmbedderDocumentSegment) :=
  docs.flatMap fun doc => doc.segments.enum.map fun p => (doc, p.1, p.2)

/-- One upsert call of the batch-upsert loop: the four spliced batch arrays
(processor.ts lines 522-531). -/
structure UpsertCall where
  ids : List String
  embeddings : List (List Int)
  metadatas : List VectorMetadata
  documents : List String
deriving Repr, DecidableEq

/-- The batch-upsert loop of `Processor.process`
(processor.ts lines 518-534): while ids remain, splice 2000 off each of the
four arrays, upsert them, and log `Wrote X/Y segments to vector collection C`
after each batch. Returns the sequence of upsert calls and the sequence of
log lines. -/
def upsertLoop (cid : String) (total numProcessed : Nat) (ids : List String)
    (embeddings : List (List Int)) (metadatas : List VectorMetadata)
    (documents : List String) : List UpsertCall × List String :=
  if h : ids = [] then
    ([], [])
  else
    let batchIds := ids.take 2000
    let rest := upsertLoop cid total (numProcessed + batchIds.length)
      (ids.drop 2000) (embeddings.drop 2000) (metadatas.drop 2000) (documents.drop 2000)
    (⟨batchIds, embeddings.take 2000, metadatas.take 2000, documents.take 2000⟩ :: rest.1,
      ("Wrote " ++ toString (numProcessed + batchIds.length) ++ "/" ++ toString total ++
        " segments to vector collection " ++ cid) :: rest.2)
termination_by ids.length
decreasing_by
  have hp : 0 < ids.length := List.length_pos.mpr h
  simp [List.length_drop]
  omega

/-- The batch upsert as run by the pipeline (processor.ts lines 518-520):
`total = ids.length`, `numProcessed = 0`. -/
def upsertAll (cid : String) (ids : List String) (embeddings : List (List Int))
    (metadatas : List VectorMetadata) (documents : List String) :
    List UpsertCall × List String :=
  upsertLoop cid ids.length 0 ids embeddings metadatas documents

/-- Test input: a string of `n` letters `a` (a stand-in for long content). -/
def stringOfA (n : Nat) : String := String.mk (List.replicate n 'a')

/-- Flush of a buffer that is non-empty and within the 500-token ceiling:
exactly one trimmed segment carrying the buffer's token count. -/
theorem mdFlush_within (tok : String → Nat) (sp : Nat → String → List String)
    (docTitle : String) (title : List String) (c : String)
    (hc : c.length > 0) (h : tok c ≤ 500) :
    mdFlush tok sp docTitle title c = [⟨jsTrim c, tok c, []⟩] := by
  simp only [mdFlush]
  rw [if_pos hc, if_neg (Nat.not_lt.mpr h)]

/-- The head of `dropWhile p l`, when present, falsifies `p`. -/
theorem head?_dropWhile_false {α : Type} (p : α → Bool) (l : List α) (x : α)
    (h : (l.dropWhile p).head? = some x) : p x = false := by
  induction l with
  | nil => simp [List.dropWhile] at h
  | cons a t ih =>
    rw [List.dropWhile_cons] at h
    by_cases hp : p a
    · rw [if_pos hp] at h
      exact ih h
    · rw [if_neg hp] at h
      simp at h
      rw [← h]
      exact Bool.not_eq_true _ |>.mp hp

/-- C2 (amended): the heading-aware split updates the breadcrumb stack for a
heading of depth `hashes` as follows. If `hashes` exceeds the current stack
SIZE, the heading is pushed and nothing is popped (so a deeper entry may
survive below the new top). Otherwise entries are popped from the top while
the top's depth is ≥ `hashes` and the heading is pushed; consequently, in
that case, the entry remaining directly below the new top (if any) has
depth < `hashes`. -/
theorem c2_breadcrumb_amended (hashes : Nat) (title : List String) (line : String) :
    (title.length < hashes → updateBreadcrumb hashes title line = title ++ [line]) ∧
    (hashes ≤ title.length →
      updateBreadcrumb hashes title line = popGE hashes title ++ [line] ∧
      ∀ x, (popGE hashes title).getLast? = some x → countHashAtBeginning x < hashes) := by
  refine ⟨fun h => ?_, fun h => ⟨?_, fun x hx => ?_⟩⟩
  · rw [updateBreadcrumb, if_pos h]
  · rw [updateBreadcrumb, if_neg (Nat.not_lt.mpr h)]
  · rw [popGE, List.getLast?_reverse] at hx
    have := head?_dropWhile_false _ _ _ hx
    simpa using this

/-- Witness for `c2_breadcrumb_amended` at a concrete input: a `# B` heading
(depth 1) on the stack `["# A"]` pops the old top and pushes itself. -/
theorem c2_breadcrumb_amended_witness :
    updateBreadcrumb 1 ["# A"] "# B" = popGE 1 ["# A"] ++ ["# B"] :=
  ((c2_breadcrumb_amended 1 ["# A"] "# B").2 (by decide)).1

/-- C2 counterexample: the claim says every heading of depth `d` pops every
stack entry of depth ≥ `d`. But a document starting `### X` then `## Y`
reaches the update for `## Y` (depth 2) with stack `["### X"]`, and since
2 > stack size 1 the code pushes WITHOUT popping: the stack becomes
`["### X", "## Y"]` — the entry `### X` below the top has depth 3 ≥ 2,
where the claim demands the stack `["## Y"]`. -/
theorem c2_counterexample :
    updateBreadcrumb 3 [] "### X" = ["### X"] ∧
    updateBreadcrumb 2 ["### X"] "## Y" = ["### X", "## Y"] ∧
    updateBreadcrumb 2 ["### X"] "## Y" ≠ ["## Y"] ∧
    2 ≤ countHashAtBeginning "### X" := by decide

/-- C4: whenever the pipeline raises any condition — including the
cooperative-cancellation condition `"Job stopped by user"` — the scheduler's
per-job handler produces a job record in state `failed` (never `running`)
with `finishedAt = now`, and the error text appended to the log exactly when
the best-effort log write succeeded. -/
theorem c4_error_handler (now : Nat) (logOk : Bool) (msg : String) (j : PJob) :
    (runJobIteration now logOk (Except.error msg) j).state = JobState.failed ∧
    (runJobIteration now logOk (Except.error msg) j).state ≠ JobState.running ∧
    (runJobIteration now logOk (Except.error msg) j).finishedAt = some now ∧
    (runJobIteration now logOk (Except.error msg) j).log =
      (if logOk then j.log ++ msg ++ "\n" else j.log) := by
  cases logOk <;> simp [runJobIteration, finishJob]

/-- C5: startup crash recovery leaves no job in state `running` (so the
scheduler loop, which starts only afterwards, can never observe one), and
every job that was `running` is present afterwards as `stopped` with
`finishedAt` set. -/
theorem c5_crash_recovery (now : Nat) (jobs : List PJob) :
    (∀ j ∈ recoverRunningJobs now jobs, j.state ≠ JobState.running) ∧
    (∀ j ∈ jobs, j.state = JobState.running →
      { j with state := JobState.stopped, finishedAt := some now } ∈
        recoverRunningJobs now jobs) := by
  constructor
  · intro j hj
    rw [recoverRunningJobs, List.mem_map] at hj
    obtain ⟨j0, _, rfl⟩ := hj
    by_cases h : j0.state = JobState.running
    · simp [h]
    · simp [h]
  · intro j hj hrun
    rw [recoverRunningJobs, List.mem_map]
    exact ⟨j, hj, by simp [hrun]⟩

/-- Witness for `c5_crash_recovery`: a store holding one orphaned `running`
job contains, after recovery, that job as `stopped` with `finishedAt` set. -/
theorem c5_crash_recovery_witness :
    ({ id := "j1", sourceId := "s1", state := JobState.stopped, log := "",
       createdAt := 0, startedAt := some 1, finishedAt := some 7 } : PJob) ∈
      recoverRunningJobs 7
        [{ id := "j1", sourceId := "s1", state := JobState.running, log := "",
           createdAt := 0, startedAt := some 1, finishedAt := none }] :=
  (c5_crash_recovery 7
      [{ id := "j1", sourceId := "s1", state := JobState.running, log := "",
         createdAt := 0, startedAt := some 1, finishedAt := none }]).2
    { id := "j1", sourceId := "s1", state := JobState.running, log := "",
      createdAt := 0, startedAt := some 1, finishedAt := none }
    (by decide) rfl

/-- C9: evaluating the sitemap batch loop at the failing input — a batch of
two URLs where reading the first page's body fails (`none`) and the second
succeeds — shows the single produced document carries `uri = "https://a/1"`,
the SKIPPED page's URL, not its own `"https://a/2"`: the push counter `i` is
not advanced by the `continue`, so every document after a failure is paired
with a shifted URL. -/
theorem c9_sitemap_uri_shift :
    (sitemapBatchDocs (fun h => ("t", h)) ["https://a/1", "https://a/2"]
        [none, some "page2"]).map EmbedderDocument.uri = ["https://a/1"] ∧
    (sitemapBatchDocs (fun h => ("t", h)) ["https://a/1", "https://a/2"]
        [none, some "page2"]) =
      [{ uri := "https://a/1", title := "t", text := "t\npage2", segments := [] }] := by
  decide

/-- C10: a job id with no record in the job store makes `checkJobStatus`
return `stopped`, so the cancellation probe built from it signals `true`,
and the sitemap extraction running under that probe aborts with the
`"Job stopped by user"` condition at its next (first remaining) batch
boundary. -/
theorem c10_deleted_job_stops (jobs : List PJob) (jobId : String)
    (fetchHtml : String → Option String) (render : String → String × String)
    (urls : List String) (acc : List EmbedderDocument)
    (hnone : jobs.find? (fun j => j.id == jobId) = none) (hurls : urls ≠ []) :
    checkJobStatus jobs jobId = JobState.stopped ∧
    shouldStopOf jobs jobId = true ∧
    sitemapScrape (shouldStopOf jobs jobId) fetchHtml render urls acc =
      Except.error "Job stopped by user" := by
  have h1 : checkJobStatus jobs jobId = JobState.stopped := by
    rw [checkJobStatus, hnone]
  have h2 : shouldStopOf jobs jobId = true := by
    rw [shouldStopOf, h1]
    rfl
  refine ⟨h1, h2, ?_⟩
  rw [sitemapScrape, dif_neg hurls, h2]
  simp

/-- Witness for `c10_deleted_job_stops`: an empty job store and a one-URL
sitemap. -/
theorem c10_deleted_job_stops_witness :
    sitemapScrape (shouldStopOf [] "job1") (fun _ => none) (fun h => ("", h))
      ["https://a/1"] [] = Except.error "Job stopped by user" :=
  (c10_deleted_job_stops [] "job1" (fun _ => none) (fun h => ("", h))
    ["https://a/1"] [] rfl (by decide)).2.2

/-- C8: on `"# A\nbody1\n## B\nbody2\n# C\nbody3"` (document title `"T"`),
provided the three accumulated buffers are within the 500-token ceiling (as
they are for any real tokenizer on these tiny texts), the heading-aware
split yields exactly 3 segments whose breadcrumb paths are `A`, `A / B` and
`C`: the shallower `# C` closed both deeper sections, and each segment's
text is the buffer seeded from the document title plus the breadcrumb
headings, followed by the section's body. -/
theorem c8_heading_split (tok : String → Nat) (sp : Nat → String → List String)
    (h1 : tok "T\n# A\nbody1\n" ≤ 500)
    (h2 : tok "T\n# A\n## B\nbody2\n" ≤ 500)
    (h3 : tok "T\n# C\nbody3\n" ≤ 500) :
    mdSegments tok sp "T" "# A\nbody1\n## B\nbody2\n# C\nbody3" =
      [⟨"T\n# A\nbody1", tok "T\n# A\nbody1\n", []⟩,
       ⟨"T\n# A\n## B\nbody2", tok "T\n# A\n## B\nbody2\n", []⟩,
       ⟨"T\n# C\nbody3", tok "T\n# C\nbody3\n", []⟩] := by
  have key : mdSegments tok sp "T" "# A\nbody1\n## B\nbody2\n# C\nbody3" =
      mdFlush tok sp "T" ["# A"] "T\n# A\nbody1\n" ++
        (mdFlush tok sp "T" ["# A", "## B"] "T\n# A\n## B\nbody2\n" ++
          mdFlush tok sp "T" ["# C"] "T\n# C\nbody3\n") := by
    rfl
  rw [key,
    mdFlush_within tok sp "T" ["# A"] "T\n# A\nbody1\n" (by decide) h1,
    mdFlush_within tok sp "T" ["# A", "## B"] "T\n# A\n## B\nbody2\n" (by decide) h2,
    mdFlush_within tok sp "T" ["# C"] "T\n# C\nbody3\n" (by decide) h3]
  rfl

/-- Witness for `c8_heading_split` with a concrete tokenizer (word count:
number of whitespace-separated runs, all well under 500 here). -/
theorem c8_heading_split_witness :
    mdSegments (fun s => (jsSplit '\n' s).length) (fun _ s => [s]) "T"
        "# A\nbody1\n## B\nbody2\n# C\nbody3" =
      [⟨"T\n# A\nbody1", 4, []⟩, ⟨"T\n# A\n## B\nbody2", 5, []⟩,
       ⟨"T\n# C\nbody3", 4, []⟩] :=
  c8_heading_split (fun s => (jsSplit '\n' s).length) (fun _ s => [s])
    (by decide) (by decide) (by decide)

/-- Mapping a function of the element over an enumerated list equals mapping
it over the list itself. -/
theorem enum_map_snd_comp {α β : Type} (l : List α) (g : α → β) :
    l.enum.map (fun p => g p.2) = l.map g := by
  rw [show (fun p : Nat × α => g p.2) = g ∘ Prod.snd from rfl, ← List.map_map,
    List.enum_map_snd]

/-- C6: the four arrays handed to the vector store are each the image of the
one logical segment list (documents in extraction order, segments in order
within each document, each with its index), so they all have the same length
and position `i` of every array refers to the same logical segment; the id
at position `i` is that segment's document uri + `"|"` + its segment index. -/
theorem c6_vector_arrays (sourceId : String) (docs : List EmbedderDocument) :
    buildIds docs = (segmentTriples docs).map
      (fun t => t.1.uri ++ "|" ++ toString t.2.1) ∧
    buildEmbeddings docs = (segmentTriples docs).map (fun t => t.2.2.embedding) ∧
    buildMetadatas sourceId docs = (segmentTriples docs).map
      (fun t => { sourceId := sourceId, docUri := t.1.uri, docTitle := t.1.title,
                  index := t.2.1, tokenCount := t.2.2.tokenCount }) ∧
    buildVectorDocs docs = (segmentTriples docs).map (fun t => t.2.2.text) ∧
    (buildIds docs).length = (segmentTriples docs).length ∧
    (buildEmbeddings docs).length = (segmentTriples docs).length ∧
    (buildMetadatas sourceId docs).length = (segmentTriples docs).length ∧
    (buildVectorDocs docs).length = (segmentTriples docs).length := by
  have e1 : buildIds docs = (segmentTriples docs).map
      (fun t => t.1.uri ++ "|" ++ toString t.2.1) := by
    simp [buildIds, segmentTriples, List.map_flatMap, List.map_map, Function.comp_def]
  have e2 : buildEmbeddings docs = (segmentTriples docs).map (fun t => t.2.2.embedding) := by
    simp [buildEmbeddings, segmentTriples, List.map_flatMap, List.map_map,
      Function.comp_def, enum_map_snd_comp]
  have e3 : buildMetadatas sourceId docs = (segmentTriples docs).map
      (fun t => { sourceId := sourceId, docUri := t.1.uri, docTitle := t.1.title,
                  index := t.2.1, tokenCount := t.2.2.tokenCount }) := by
    simp [buildMetadatas, segmentTriples, List.map_flatMap, List.map_map, Function.comp_def]
  have e4 : buildVectorDocs docs = (segmentTriples docs).map (fun t => t.2.2.text) := by
    simp [buildVectorDocs, segmentTriples, List.map_flatMap, List.map_map,
      Function.comp_def, enum_map_snd_comp]
  exact ⟨e1, e2, e3, e4, by rw [e1, List.length_map], by rw [e2, List.length_map],
    by rw [e3, List.length_map], by rw [e4, List.length_map]⟩

/-- Shape of the batch-upsert loop, by induction on a bound of the id-array
length: every upsert call holds at most 2000 records, the call sizes sum to
the number of ids, and there is exactly one progress log line per call. -/
theorem upsertLoop_props (cid : String) : ∀ (n : Nat) (ids : List String)
    (em : List (List Int)) (md : List VectorMetadata) (dc : List String) (total np : Nat),
    ids.length ≤ n →
    (∀ c ∈ (upsertLoop cid total np ids em md dc).1, c.ids.length ≤ 2000) ∧
    ((upsertLoop cid total np ids em md dc).1.map (fun c => c.ids.length)).sum = ids.length ∧
    (upsertLoop cid total np ids em md dc).2.length =
      (upsertLoop cid total np ids em md dc).1.length := by
  intro n
  induction n with
  | zero =>
    intro ids em md dc total np hle
    have h0 : ids = [] := List.eq_nil_of_length_eq_zero (Nat.le_zero.mp hle)
    subst h0
    rw [upsertLoop]
    simp
  | succ n ih =>
    intro ids em md dc total np hle
    by_cases hn : ids = []
    · subst hn
      rw [upsertLoop]
      simp
    · rw [upsertLoop, dif_neg hn]
      have hpos : 0 < ids.length := List.length_pos.mpr hn
      have hlen : (ids.drop 2000).length ≤ n := by
        simp [List.length_drop]
        omega
      obtain ⟨p1, p2, p3⟩ := ih (ids.drop 2000) (em.drop 2000) (md.drop 2000)
        (dc.drop 2000) total (np + (ids.take 2000).length) hlen
      refine ⟨?_, ?_, ?_⟩
      · intro c hc
        simp only [List.mem_cons] at hc
        rcases hc with hc | hc
        · subst hc
          simp [List.length_take]
        · exact p1 c hc
      · simp only [List.map_cons, List.sum_cons, p2]
        simp [List.length_take, List.length_drop]
        omega
      · simp only [List.length_take] at p3
        simpa using p3

/-- C7: the pipeline upserts in batches of at most 2000 records, the batch
sizes sum to the total number of segments (every record is written), one
progress log line is produced per upsert call, and an id array of exactly
4500 records produces exactly the three calls of sizes 2000, 2000, 500 in
that order. -/
theorem c7_batch_upsert (cid : String) (ids : List String) (em : List (List Int))
    (md : List VectorMetadata) (dc : List String) :
    (∀ c ∈ (upsertAll cid ids em md dc).1, c.ids.length ≤ 2000) ∧
    ((upsertAll cid ids em md dc).1.map (fun c => c.ids.length)).sum = ids.length ∧
    (upsertAll cid ids em md dc).2.length = (upsertAll cid ids em md dc).1.length ∧
    (ids.length = 4500 →
      (upsertAll cid ids em md dc).1.map (fun c => c.ids.length) = [2000, 2000, 500]) := by
  obtain ⟨p1, p2, p3⟩ :=
    upsertLoop_props cid ids.length ids em md dc ids.length 0 le_rfl
  refine ⟨p1, p2, p3, fun h4500 => ?_⟩
  have hne : ids ≠ [] := by
    intro e
    rw [e] at h4500
    simp at h4500
  rw [upsertAll, upsertLoop, dif_neg hne]
  simp only [List.map_cons, List.length_take, h4500]
  norm_num
  have d1 : (ids.drop 2000).length = 2500 := by simp [List.length_drop, h4500]
  have hne1 : ids.drop 2000 ≠ [] := by
    intro e
    rw [e] at d1
    simp at d1
  rw [upsertLoop, dif_neg hne1]
  simp only [List.map_cons, List.length_take, d1]
  norm_num
  have d2 : (ids.drop 4000).length = 500 := by simp [List.length_drop, h4500]
  have hne2 : ids.drop 4000 ≠ [] := by
    intro e
    rw [e] at d2
    simp at d2
  rw [upsertLoop, dif_neg hne2]
  simp only [List.map_cons, List.length_take, d2]
  norm_num
  have d3 : (ids.drop 6000).length = 0 := by simp [List.length_drop, h4500]
  have hnil : ids.drop 6000 = [] := List.eq_nil_of_length_eq_zero d3
  rw [upsertLoop, dif_pos hnil]

/-- Witness for `c7_batch_upsert`: 4500 concrete records produce exactly the
batch sizes 2000, 2000, 500. -/
theorem c7_batch_upsert_witness :
    (upsertAll "c" (List.replicate 4500 "x") [] [] []).1.map (fun c => c.ids.length) =
      [2000, 2000, 500] :=
  (c7_batch_upsert "c" (List.replicate 4500 "x") [] [] []).2.2.2
    (List.length_replicate 4500 "x")

/-- C3: for an FAQ source whose earlier entries are all within the 500-token
ceiling, processing builds for each entry one document with text
`questions + "\n\n" + answer`; if the final entry's text exceeds 500 tokens
the job fails fatally with the message naming that entry's title
(`questions`), and otherwise — in particular at exactly 500 tokens — every
entry ends up with EXACTLY ONE segment holding its whole text and its token
count: an FAQ entry is never split. -/
theorem c3_faq_atomic (tok : String → Nat) (sourceId : String)
    (pre : List FaqEntry) (e : FaqEntry)
    (hpre : ∀ x ∈ pre, tok (x.questions ++ "\n\n" ++ x.answer) ≤ 500) :
    faqProcess tok sourceId (pre ++ [e]) =
      (if 500 < tok (e.questions ++ "\n\n" ++ e.answer) then
        Except.error ("Token count of FAQ entry '" ++ e.questions ++ "' > 500, make it smaller.")
      else
        Except.ok ((pre ++ [e]).map fun x =>
          { uri := "faq://" ++ sourceId ++ "/" ++ x.id,
            title := x.questions,
            text := x.questions ++ "\n\n" ++ x.answer,
            segments := [⟨x.questions ++ "\n\n" ++ x.answer,
                          tok (x.questions ++ "\n\n" ++ x.answer), []⟩] })) := by
  induction pre with
  | nil =>
    simp only [List.nil_append, faqProcess, embedWithHook, List.map_cons, List.map_nil,
      List.mapM_cons, List.mapM_nil, faqDoc, faqHook]
    by_cases h : 500 < tok (e.questions ++ "\n\n" ++ e.answer)
    · simp [h]
    · simp [h]
  | cons a pre ih =>
    have ha : ¬ 500 < tok (a.questions ++ "\n\n" ++ a.answer) :=
      Nat.not_lt.mpr (hpre a (by simp))
    have ih2 := ih (fun x hx => hpre x (by simp [hx]))
    simp only [List.cons_append, faqProcess, embedWithHook, List.map_cons,
      List.mapM_cons] at ih2 ⊢
    rw [show faqHook tok (faqDoc sourceId a) = Except.ok
      { uri := "faq://" ++ sourceId ++ "/" ++ a.id,
        title := a.questions,
        text := a.questions ++ "\n\n" ++ a.answer,
        segments := [⟨a.questions ++ "\n\n" ++ a.answer,
                      tok (a.questions ++ "\n\n" ++ a.answer), []⟩] } by
      simp [faqHook, faqDoc, ha]]
    by_cases h : 500 < tok (e.questions ++ "\n\n" ++ e.answer)
    · rw [if_pos h] at ih2 ⊢
      simp only [bind, Except.bind]
      rw [ih2]
    · rw [if_neg h] at ih2 ⊢
      simp only [bind, Except.bind]
      rw [ih2]
      rfl

/-- Witness for `c3_faq_atomic` at the 500-token boundary: with the
tokenizer `10 tokens per character`, an entry of exactly 500 tokens
succeeds with exactly one segment (no split), alongside a small earlier
entry. -/
theorem c3_faq_atomic_witness :
    (fun s : String => 10 * s.length) ("q" ++ "\n\n" ++ stringOfA 47) = 500 ∧
    faqProcess (fun s => 10 * s.length) "s"
        ([⟨"1", "q0", "a0"⟩] ++ [⟨"2", "q", stringOfA 47⟩]) =
      Except.ok
        [⟨"faq://s/1", "q0", "q0\n\na0", [⟨"q0\n\na0", 60, []⟩]⟩,
         ⟨"faq://s/2", "q", "q\n\n" ++ stringOfA 47,
          [⟨"q\n\n" ++ stringOfA 47, 500, []⟩]⟩] := by
  refine ⟨by decide, ?_⟩
  have h := c3_faq_atomic (fun s => 10 * s.length) "s" [⟨"1", "q0", "a0"⟩]
    ⟨"2", "q", stringOfA 47⟩ (by decide)
  rw [if_neg (by decide)] at h
  rw [h]
  exact congrArg Except.ok (by decide)

/-- The Flarum post loop emits, in order, one document per post passing the
language and staff filters, whose segments are the per-post segment
construction; emitted-document order follows post order. -/
theorem flarumPostLoop_segments (tok : String → Nat) (sp : Nat → String → List String)
    (staff : List String) (uri title : String) :
    ∀ (posts : List FlarumPost) (postId : Nat),
    (flarumPostLoop tok sp staff uri title posts postId).map EmbedderDocument.segments =
      (posts.filter (flarumPostPasses staff)).map (fun p =>
        if 500 < tok p.content then
          (sp 1024 (title ++ "\n" ++ p.content)).map fun s => ⟨s, tok s, []⟩
        else
          [⟨title ++ "\n" ++ p.content, tok p.content, []⟩]) := by
  intro posts
  induction posts with
  | nil => intro postId; rfl
  | cons p rest ih =>
    intro postId
    by_cases hp : flarumPostPasses staff p
    · simp only [flarumPostLoop, hp, if_true, List.filter_cons, List.map_cons, ih,
        flarumPostSegments, recursiveSplit]
    · simp only [flarumPostLoop, hp, if_false, List.filter_cons, ih]
      simp only [hp, Bool.false_eq_true, if_false]
      exact ih postId

/-- C1 (amended): every document the Flarum extractor emits for a discussion
corresponds (in order) to a post passing the language and staff filters, and
its segments are built from the chunk text `discussionTitle + "\n" + postContent`;
but the splitting decision is made on the token count of the POST CONTENT
ALONE: if `tok content > 500` the chunk text is split by the flat recursive
split at target 1024 (each split carrying its own token count), otherwise
exactly one segment holding the chunk text — with the CONTENT's token count
stored on it — is emitted. -/
theorem c1_flarum_amended (tok : String → Nat) (sp : Nat → String → List String)
    (staff : List String) (forumUrl : String) (d : FlarumDiscussion) :
    (flarumDiscussionDocs tok sp staff forumUrl d).map EmbedderDocument.segments =
      ((d.posts.getD []).filter (flarumPostPasses staff)).map (fun p =>
        if 500 < tok p.content then
          (sp 1024 (d.title ++ "\n" ++ p.content)).map fun s => ⟨s, tok s, []⟩
        else
          [⟨d.title ++ "\n" ++ p.content, tok p.content, []⟩]) := by
  cases hp : d.posts with
  | none => simp [flarumDiscussionDocs, hp]
  | some posts => simp [flarumDiscussionDocs, hp, flarumPostLoop_segments]

/-- C1 counterexample: the claim says the split decision is made on the
CHUNK text's token count (`title + "\n" + content`). Take the tokenizer
`10 tokens per character` (any tokenizer in which the title contributes
tokens behaves alike) and a 50-character content under a title `"T"`:
the chunk text counts 520 > 500 tokens, so by the claim the chunk must go
through the flat recursive split (whose segments carry their own token
counts, here 520) — but the code, deciding on the content's 500 ≤ 500
tokens, emits exactly one segment with stored token count 500. -/
theorem c1_counterexample :
    flarumPostSegments (fun s => 10 * s.length) (fun _ s => [s]) "T" (stringOfA 50) =
      [⟨"T\n" ++ stringOfA 50, 500, []⟩] ∧
    500 < (fun s : String => 10 * s.length) ("T\n" ++ stringOfA 50) ∧
    recursiveSplit (fun s => 10 * s.length) (fun _ s => [s]) 1024 ("T\n" ++ stringOfA 50) =
      [⟨"T\n" ++ stringOfA 50, 520, []⟩] ∧
    ([⟨"T\n" ++ stringOfA 50, (500 : Nat), ([] : List Int)⟩] :
        List EmbedderDocumentSegment) ≠
      [⟨"T\n" ++ stringOfA 50, 520, []⟩] := by
  decide
